import Mathlib

/-!
# Verification of the per-guild permission engine and dual-backend config store

Shallow embedding of the capability-resolution and persistence logic of a
community-management bot:

* `src/types/index.ts` — `BotPermission`, `PermissionConfig`, `RolePermission`,
  `UserPermission`, `ServerConfig`;
* `src/config/permission-manager.ts` — `PermissionManager` (resolver and
  policy-administration operations);
* `src/utils/permission-checker.ts` — `PermissionChecker.hasSpecificPermission`
  (admin short-circuit over the resolver);
* `src/config/server-config.ts` — `ConfigManager.loadServerConfig` and the
  database read/write helpers (dual-backend store with read-through migration);
* the `/config permissions` command handlers — `parsePermissions` and the
  role-add / user-add / default subcommands.

Asynchronous I/O is modelled by explicit state passing over a `StoreState`
(database availability flag, database rows, fallback files); fallible
operations return `Except`.  The resolver is pure in the source and is pure
here.
-/

namespace DiscordBot

/-- The closed capability catalog: the `BotPermission` union type of
`src/types/index.ts`. -/
inductive BotPermission where
  | use_bot
  | run_analysis
  | quick_analyze
  | consult
  | manage_config
  | manage_permissions
  | view_help
deriving DecidableEq, Repr

/-- Model of `RolePermission` from `src/types/index.ts`: one role binding. -/
structure RolePermission where
  roleId : String
  roleName : String
  permissions : List BotPermission
  enabled : Bool
deriving DecidableEq, Repr

/-- Model of `UserPermission` from `src/types/index.ts`: one per-user binding.
`isCustom` selects replace (true) vs additive (false) semantics. -/
structure UserPermission where
  userId : String
  username : String
  permissions : List BotPermission
  enabled : Bool
  isCustom : Bool
deriving DecidableEq, Repr

/-- Model of `PermissionConfig` from `src/types/index.ts`: the permission policy of one tenant. -/
structure PermissionConfig where
  rolePermissions : List RolePermission
  userPermissions : List UserPermission
  defaultPermissions : List BotPermission
  adminOnlyPermissions : List BotPermission
deriving DecidableEq, Repr

/-- Translation of `PermissionManager.createDefaultPermissionConfig` from
`src/config/permission-manager.ts`. -/
def createDefaultPermissionConfig : PermissionConfig :=
  { rolePermissions := []
    userPermissions := []
    defaultPermissions := [.view_help]
    adminOnlyPermissions := [.manage_config, .manage_permissions] }

/-- Translation of `PermissionManager.getAllPermissions` from `src/config/permission-manager.ts`:
the full catalog in source order. -/
def getAllPermissions : List BotPermission :=
  [.use_bot, .run_analysis, .quick_analyze, .consult,
   .manage_config, .manage_permissions, .view_help]

/-! ## The resolver

`getUserEffectivePermissions` builds a JavaScript `Set<BotPermission>` by
insertion; we model that set as a duplicate-free list in insertion order
(`setAdd` inserts at the back when absent, exactly `Set.prototype.add`). -/

/-- Model of `Set.prototype.add` on an insertion-ordered duplicate-free list. -/
def setAdd (s : List BotPermission) (p : BotPermission) : List BotPermission :=
  if p ∈ s then s else s ++ [p]

/-- Model of `ps.forEach(p => set.add(p))`. -/
def setAddAll (s : List BotPermission) (ps : List BotPermission) : List BotPermission :=
  ps.foldl setAdd s

/-- Translation of `PermissionManager.getUserEffectivePermissions` from
`src/config/permission-manager.ts`, with the policy already loaded and the
facts of the member (`member.id`, `member.roles.cache` ids) passed explicitly:
1. add `defaultPermissions`; 2. add every enabled role binding held by the
member; 3. apply the first enabled user binding for the member — replace the
set when `isCustom`, otherwise add. -/
def getUserEffectivePermissions (config : PermissionConfig)
    (memberId : String) (memberRoleIds : List String) : List BotPermission :=
  let permissions := setAddAll [] config.defaultPermissions
  let permissions :=
    (config.rolePermissions.filter
      (fun rp => rp.enabled && memberRoleIds.contains rp.roleId)).foldl
      (fun s rp => setAddAll s rp.permissions) permissions
  match config.userPermissions.find? (fun up => up.userId == memberId && up.enabled) with
  | none => permissions
  | some userPermission =>
      if userPermission.isCustom then
        setAddAll [] userPermission.permissions
      else
        setAddAll permissions userPermission.permissions

/-- Translation of `PermissionManager.hasPermission` from `src/config/permission-manager.ts`,
with the policy already loaded and the admin classification of the member
passed as the boolean `isAdmin` (the source awaits
`permissionChecker.isAdmin(member)`, which is deterministic in the facts of the member). -/
def hasPermission (config : PermissionConfig) (memberId : String)
    (memberRoleIds : List String) (isAdmin : Bool)
    (permission : BotPermission) : Bool :=
  if config.adminOnlyPermissions.contains permission then
    isAdmin
  else
    (getUserEffectivePermissions config memberId memberRoleIds).contains permission

/-- Translation of `PermissionChecker.hasSpecificPermission` from
`src/utils/permission-checker.ts`: admin short-circuit, then the permission
system. -/
def hasSpecificPermission (config : PermissionConfig) (memberId : String)
    (memberRoleIds : List String) (isAdmin : Bool)
    (permission : BotPermission) : Bool :=
  if isAdmin then true
  else hasPermission config memberId memberRoleIds isAdmin permission

/-! ## Administration operations on the permission store

The `PermissionManager` mutators share one shape: load the whole
`permissions.json` record-of-configs, take the config of the server (or a
fresh default), replace or append a list entry found by `findIndex`
(`existingIndex >= 0` replaces, `-1` pushes), store the config back under the
server key, and save the file.  `upsertBy` is the exact replace-or-append
computation (`findIndex` returning `-1` is modelled as `none`); `assocUpsert`
is the JavaScript property assignment `allConfigs[serverId] = config`, which
keeps the position of an existing key and appends a new one. -/

/-- Model of `Array.prototype.findIndex`, with `-1` rendered as `none`. -/
def findIndexOpt {α : Type} (f : α → Bool) : List α → Option Nat
  | [] => none
  | x :: xs => if f x then some 0 else (findIndexOpt f xs).map (· + 1)

/-- Replace the first entry satisfying `f` by `nb`, or append `nb` when no
entry satisfies `f` — the `findIndex` / assign-or-push body shared by the
`PermissionManager` upserts. -/
def upsertBy {α : Type} (f : α → Bool) (nb : α) (l : List α) : List α :=
  match findIndexOpt f l with
  | some existingIndex => l.set existingIndex nb
  | none => l ++ [nb]

/-- Lookup in a string-keyed record modelled as an association list. -/
def assocLookup {β : Type} (l : List (String × β)) (key : String) : Option β :=
  (l.find? (fun kv => kv.1 == key)).map (fun kv => kv.2)

/-- Model of the JavaScript property assignment `record[key] = value`. -/
def assocUpsert {β : Type} (l : List (String × β)) (key : String) (value : β) :
    List (String × β) :=
  upsertBy (fun kv => kv.1 == key) (key, value) l

/-- Contents of `config/permissions.json`: one `PermissionConfig` per server id. -/
abbrev PermissionConfigs := List (String × PermissionConfig)

/-- Translation of `PermissionManager.setRolePermissions` from
`src/config/permission-manager.ts` (the pure load-mutate-store core; the
surrounding file I/O and rethrowing try/catch carry no extra logic).  The new
binding always has `enabled = true`. -/
def setRolePermissions (allConfigs : PermissionConfigs)
    (serverId roleId roleName : String) (permissions : List BotPermission) :
    PermissionConfigs :=
  let config := (assocLookup allConfigs serverId).getD createDefaultPermissionConfig
  let config :=
    { config with
      rolePermissions :=
        upsertBy (fun rp => rp.roleId == roleId)
          { roleId := roleId, roleName := roleName
            permissions := permissions, enabled := true }
          config.rolePermissions }
  assocUpsert allConfigs serverId config

/-- Translation of `PermissionManager.setUserPermissions` from
`src/config/permission-manager.ts`, with the optional `isCustom` argument
passed explicitly.  The new binding always has `enabled = true`. -/
def setUserPermissions (allConfigs : PermissionConfigs)
    (serverId userId username : String) (permissions : List BotPermission)
    (isCustom : Bool) : PermissionConfigs :=
  let config := (assocLookup allConfigs serverId).getD createDefaultPermissionConfig
  let config :=
    { config with
      userPermissions :=
        upsertBy (fun up => up.userId == userId)
          { userId := userId, username := username
            permissions := permissions, enabled := true, isCustom := isCustom }
          config.userPermissions }
  assocUpsert allConfigs serverId config

/-- Call of `setUserPermissions` with the `isCustom` argument omitted: the
source declares the parameter as `isCustom: boolean = true`, so omission
means `true`. -/
def setUserPermissionsOmittingIsCustom (allConfigs : PermissionConfigs)
    (serverId userId username : String) (permissions : List BotPermission) :
    PermissionConfigs :=
  setUserPermissions allConfigs serverId userId username permissions true

/-- Translation of `PermissionManager.removeRolePermissions` from
`src/config/permission-manager.ts`: keep exactly the bindings whose `roleId`
differs (`rp.roleId !== roleId`). -/
def removeRolePermissions (allConfigs : PermissionConfigs)
    (serverId roleId : String) : PermissionConfigs :=
  let config := (assocLookup allConfigs serverId).getD createDefaultPermissionConfig
  let config :=
    { config with
      rolePermissions := config.rolePermissions.filter (fun rp => rp.roleId != roleId) }
  assocUpsert allConfigs serverId config

/-! ## The dual-backend server-config store (`ConfigManager`)

`loadServerConfig` reads the PostgreSQL table `server_configs` when a
database is configured, falls back to `config/servers/<id>.json`, migrates a
file hit into the database, and synthesizes a default config when both miss.
The state of the world is a `StoreState`: the availability flag
(`database.isAvailable()`, i.e. whether `DATABASE_URL` is set), a flag saying
whether an INSERT into `server_configs` currently errors, the table rows, and
the parsed fallback files.  `loadConfigFromDatabase` swallows its own read
errors (returning `null`), so only write failures are modelled. -/

/-- Model of the `AIProvider` union type from `src/types/index.ts`. -/
inductive AIProvider where
  | chatgpt
  | gemini
  | claude
deriving DecidableEq, Repr

/-- Values of `settings.defaultAnalysisPeriod` from `src/types/index.ts`. -/
inductive AnalysisPeriod where
  | today
  | yesterday
deriving DecidableEq, Repr

/-- The `settings` field of `ServerConfig` from `src/types/index.ts`. -/
structure ServerSettings where
  defaultAnalysisPeriod : AnalysisPeriod
  useCustomPrompt : Bool
deriving DecidableEq, Repr

/-- Model of `ServerConfig` from `src/types/index.ts`.  The optional
`customPrompt` becomes `Option String`. -/
structure ServerConfig where
  serverId : String
  serverName : String
  analyzedChannels : List String
  aiProvider : AIProvider
  customPrompt : Option String
  rules : List String
  clientRequirements : List String
  adminRoles : List String
  permissions : PermissionConfig
  settings : ServerSettings
deriving DecidableEq, Repr

/-- One row of the `server_configs` table, with exactly the columns written
by `ConfigManager.saveConfigToDatabase`.  Note that the table has no column
for the `permissions` field of `ServerConfig`. -/
structure ServerConfigRow where
  server_id : String
  server_name : String
  ai_provider : AIProvider
  custom_prompt : Option String
  analyzed_channels : List String
  rules : List String
  client_requirements : List String
  admin_roles : List String
  use_custom_prompt : Bool
  default_analysis_period : AnalysisPeriod
deriving DecidableEq, Repr

/-- The column list of the INSERT in `ConfigManager.saveConfigToDatabase`. -/
def rowOfConfig (config : ServerConfig) : ServerConfigRow :=
  { server_id := config.serverId
    server_name := config.serverName
    ai_provider := config.aiProvider
    custom_prompt := config.customPrompt
    analyzed_channels := config.analyzedChannels
    rules := config.rules
    client_requirements := config.clientRequirements
    admin_roles := config.adminRoles
    use_custom_prompt := config.settings.useCustomPrompt
    default_analysis_period := config.settings.defaultAnalysisPeriod }

/-- The row-to-config mapping inside `ConfigManager.loadConfigFromDatabase`.
On the typed row the defaultings `row.server_name || ...` and similar are the
identity, except `row.custom_prompt || undefined`, which turns an empty
string into `undefined`.  The `permissions` field is hardcoded to the default
policy — the table stores none. -/
def configOfRow (row : ServerConfigRow) : ServerConfig :=
  { serverId := row.server_id
    serverName := row.server_name
    aiProvider := row.ai_provider
    customPrompt :=
      match row.custom_prompt with
      | some s => if s == "" then none else some s
      | none => none
    analyzedChannels := row.analyzed_channels
    rules := row.rules
    clientRequirements := row.client_requirements
    adminRoles := row.admin_roles
    permissions :=
      { rolePermissions := []
        userPermissions := []
        defaultPermissions := [.view_help]
        adminOnlyPermissions := [.manage_config, .manage_permissions] }
    settings :=
      { useCustomPrompt := row.use_custom_prompt
        defaultAnalysisPeriod := row.default_analysis_period } }

/-- Translation of `ConfigManager.createDefaultConfig` from
`src/config/server-config.ts`. -/
def createDefaultConfig (serverId : String) : ServerConfig :=
  { serverId := serverId
    serverName := ""
    analyzedChannels := []
    aiProvider := .claude
    customPrompt := none
    rules := []
    clientRequirements := []
    adminRoles := []
    permissions :=
      { rolePermissions := []
        userPermissions := []
        defaultPermissions := [.view_help]
        adminOnlyPermissions := [.manage_config, .manage_permissions] }
    settings :=
      { defaultAnalysisPeriod := .today
        useCustomPrompt := false } }

/-- World state of the dual-backend store. -/
structure StoreState where
  dbAvailable : Bool
  dbWriteFails : Bool
  db : List (String × ServerConfigRow)
  files : List (String × ServerConfig)
deriving DecidableEq, Repr

/-- Errors `loadServerConfig` can surface (any error whose `code` is not
`ENOENT` is logged and rethrown by its catch). -/
inductive LoadError where
  | dbWriteError
  | validationError
deriving DecidableEq, Repr

/-- Translation of `ConfigManager.saveConfigToDatabase` from
`src/config/server-config.ts`: an upsert keyed by `server_id`
(`ON CONFLICT (server_id) DO UPDATE`); a query failure is logged and
rethrown. -/
def saveConfigToDatabase (st : StoreState) (config : ServerConfig) :
    Except LoadError StoreState :=
  if st.dbWriteFails then .error .dbWriteError
  else .ok { st with db := assocUpsert st.db config.serverId (rowOfConfig config) }

/-- Translation of `ConfigManager.loadConfigFromDatabase` from
`src/config/server-config.ts`: a SELECT by `server_id`, mapped through
`configOfRow`; read errors are swallowed into `none`. -/
def loadConfigFromDatabase (st : StoreState) (serverId : String) :
    Option ServerConfig :=
  (assocLookup st.db serverId).map configOfRow

/-- Translation of `ConfigManager.validateConfig` from
`src/config/server-config.ts` on the typed model: the `serverId` check
(`!config.serverId` rejects the empty string); the array, provider-enum and
settings-object checks hold by typing. -/
def validateConfigOk (config : ServerConfig) : Bool :=
  config.serverId != ""

/-- Translation of `ConfigManager.loadServerConfig` from
`src/config/server-config.ts`:
1. when the database is available and has the row, return it (as mapped by
   `loadConfigFromDatabase`);
2. otherwise read `config/servers/<id>.json`; on a hit, validate, then — when
   the database is available — write the record through to the database
   (`saveConfigToDatabase`); a write failure is rethrown by the catch since
   its code is not `ENOENT`;
3. on a file miss (`ENOENT`), synthesize `createDefaultConfig`, save it to
   the database when the database is available (a failure propagates out of
   the catch), and return it; the file backend is not written in this branch. -/
def loadServerConfig (st : StoreState) (serverId : String) :
    Except LoadError (ServerConfig × StoreState) :=
  match (if st.dbAvailable then loadConfigFromDatabase st serverId else none) with
  | some config => .ok (config, st)
  | none =>
    match assocLookup st.files serverId with
    | some config =>
        if validateConfigOk config then
          if st.dbAvailable then
            match saveConfigToDatabase st config with
            | .ok st2 => .ok (config, st2)
            | .error e => .error e
          else .ok (config, st)
        else .error .validationError
    | none =>
        let defaultConfig := createDefaultConfig serverId
        if st.dbAvailable then
          match saveConfigToDatabase st defaultConfig with
          | .ok st2 => .ok (defaultConfig, st2)
          | .error e => .error e
        else .ok (defaultConfig, st)

/-! ## The `/config permissions` subcommand handlers

`parsePermissions` receives the raw option string, splits it on commas,
trims each piece, and keeps the pieces occurring in
`permissionManager.getAllPermissions()`.  We model the input as the list of
comma-separated, already-trimmed tokens (the string splitting is platform
plumbing); keeping a token exactly when it names a catalog entry, combined
with the cast to the enum, is `filterMap botPermissionFromName`. -/

/-- Decode a capability name; `none` for names outside the catalog. -/
def botPermissionFromName (s : String) : Option BotPermission :=
  if s == "use_bot" then some .use_bot
  else if s == "run_analysis" then some .run_analysis
  else if s == "quick_analyze" then some .quick_analyze
  else if s == "consult" then some .consult
  else if s == "manage_config" then some .manage_config
  else if s == "manage_permissions" then some .manage_permissions
  else if s == "view_help" then some .view_help
  else none

/-- Translation of `configCommand.parsePermissions` at the token level. -/
def parsePermissions (tokens : List String) : List BotPermission :=
  tokens.filterMap botPermissionFromName

/-- Outcome of a binding subcommand: either the handler replied with the
error 「有効な権限が指定されていません。」 and performed no binding
operation, or it invoked the manager with the listed capabilities. -/
inductive BindOutcome where
  | rejected
  | applied (permissions : List BotPermission)
deriving DecidableEq, Repr

/-- The `role-add` branch of `configCommand.handlePermissionCommands`:
parse, reject when nothing valid remains, otherwise call
`setRolePermissions` with the parsed list. -/
def handleRoleAdd (tokens : List String) : BindOutcome :=
  let rolePerms := parsePermissions tokens
  if rolePerms.length == 0 then .rejected
  else .applied rolePerms

/-- The `user-add` branch of `configCommand.handlePermissionCommands`: same
accept/reject shape (the `custom` flag only changes the manager call). -/
def handleUserAdd (tokens : List String) : BindOutcome :=
  let userPerms := parsePermissions tokens
  if userPerms.length == 0 then .rejected
  else .applied userPerms

/-- The `default` branch of `configCommand.handlePermissionCommands`. -/
def handleSetDefaultPerms (tokens : List String) : BindOutcome :=
  let defaultPerms := parsePermissions tokens
  if defaultPerms.length == 0 then .rejected
  else .applied defaultPerms

/-! ## Concrete sample data

Closed states and policies used by the counterexamples and witnesses. -/

/-- A policy whose default set, one role binding and one user binding all
grant `manage_config`, which is also admin-only. -/
def samplePolicyAdminOnly : PermissionConfig :=
  { rolePermissions :=
      [{ roleId := "r1", roleName := "mods"
         permissions := [.manage_config], enabled := true }]
    userPermissions :=
      [{ userId := "u1", username := "alice"
         permissions := [.manage_config], enabled := true, isCustom := false }]
    defaultPermissions := [.view_help, .manage_config]
    adminOnlyPermissions := [.manage_config, .manage_permissions] }

/-- A custom user binding granting only `consult`. -/
def sampleCustomBinding : UserPermission :=
  { userId := "u1", username := "alice"
    permissions := [.consult], enabled := true, isCustom := true }

/-- A policy with a default, a held role binding and the custom binding. -/
def samplePolicyCustom : PermissionConfig :=
  { rolePermissions :=
      [{ roleId := "r1", roleName := "mods"
         permissions := [.use_bot, .run_analysis], enabled := true }]
    userPermissions := [sampleCustomBinding]
    defaultPermissions := [.view_help]
    adminOnlyPermissions := [.manage_config, .manage_permissions] }

/-- A server config with a non-default permissions policy, as stored in the
fallback file backend. -/
def sampleFileConfig : ServerConfig :=
  { serverId := "g1"
    serverName := "Guild One"
    analyzedChannels := ["ch1"]
    aiProvider := .gemini
    customPrompt := some "analyse kindly"
    rules := ["be nice"]
    clientRequirements := []
    adminRoles := ["ra"]
    permissions :=
      { rolePermissions :=
          [{ roleId := "r1", roleName := "mods"
             permissions := [.use_bot], enabled := true }]
        userPermissions := []
        defaultPermissions := [.view_help, .use_bot]
        adminOnlyPermissions := [.manage_config, .manage_permissions] }
    settings := { defaultAnalysisPeriod := .today, useCustomPrompt := true } }

/-- Database reachable, writes succeed, table empty, one fallback file. -/
def sampleMigrationState : StoreState :=
  { dbAvailable := true, dbWriteFails := false
    db := [], files := [("g1", sampleFileConfig)] }

/-- `sampleMigrationState` after the first load migrated the file record. -/
def sampleMigratedState : StoreState :=
  { sampleMigrationState with db := [("g1", rowOfConfig sampleFileConfig)] }

/-- Database reachable but rejecting writes, table empty, one fallback file. -/
def sampleWriteFailState : StoreState :=
  { dbAvailable := true, dbWriteFails := true
    db := [], files := [("g1", sampleFileConfig)] }

/-- No database configured and no fallback files: both backends miss. -/
def sampleEmptyNoDbState : StoreState :=
  { dbAvailable := false, dbWriteFails := false, db := [], files := [] }

/-- Database reachable and writable but empty, and no fallback files. -/
def sampleEmptyDbState : StoreState :=
  { dbAvailable := true, dbWriteFails := false, db := [], files := [] }

/-! ## Helper lemmas -/

/-- Membership after one `setAdd` insertion. -/
theorem mem_setAdd {p q : BotPermission} {s : List BotPermission} :
    p ∈ setAdd s q ↔ p ∈ s ∨ p = q := by
  unfold setAdd
  by_cases h : q ∈ s
  · simp only [h, if_true]
    constructor
    · exact Or.inl
    · rintro (hp | rfl)
      · exact hp
      · exact h
  · simp [h]

/-- Membership after adding a whole list. -/
theorem mem_setAddAll {p : BotPermission} {ps : List BotPermission} :
    ∀ {s : List BotPermission}, p ∈ setAddAll s ps ↔ p ∈ s ∨ p ∈ ps := by
  induction ps with
  | nil => simp [setAddAll]
  | cons q ps ih =>
      intro s
      have step : setAddAll s (q :: ps) = setAddAll (setAdd s q) ps := rfl
      rw [step, ih, mem_setAdd]
      simp only [List.mem_cons]
      tauto

/-- On a head not satisfying `f`, `upsertBy` recurses past it. -/
theorem upsertBy_cons_neg {α : Type} {f : α → Bool} {x : α} (nb : α)
    (xs : List α) (hx : f x = false) :
    upsertBy f nb (x :: xs) = x :: upsertBy f nb xs := by
  cases hfi : findIndexOpt f xs with
  | none => simp [upsertBy, findIndexOpt, hx, hfi]
  | some i => simp [upsertBy, findIndexOpt, hx, hfi]

/-- On a head satisfying `f`, `upsertBy` replaces the head. -/
theorem upsertBy_cons_pos {α : Type} {f : α → Bool} {x : α} (nb : α)
    (xs : List α) (hx : f x = true) :
    upsertBy f nb (x :: xs) = nb :: xs := by
  unfold upsertBy findIndexOpt
  rw [hx]
  rfl

/-- After an upsert of an entry satisfying `f`, `find? f` returns it. -/
theorem find?_upsertBy {α : Type} {f : α → Bool} {nb : α} (hnb : f nb = true) :
    ∀ l : List α, (upsertBy f nb l).find? f = some nb := by
  intro l
  induction l with
  | nil =>
      show ((([] : List α) ++ [nb]).find? f) = some nb
      simp [List.find?, hnb]
  | cons x xs ih =>
      cases hx : f x with
      | true =>
          rw [upsertBy_cons_pos nb xs hx]
          simp [List.find?, hnb]
      | false =>
          rw [upsertBy_cons_neg nb xs hx]
          rw [List.find?_cons_of_neg _ (by simp [hx])]
          exact ih

/-- After an upsert into a list holding at most one entry satisfying `f`,
the entries satisfying `f` are exactly the new one. -/
theorem filter_upsertBy {α : Type} {f : α → Bool} {nb : α} (hnb : f nb = true) :
    ∀ l : List α, l.countP f ≤ 1 → (upsertBy f nb l).filter f = [nb] := by
  intro l
  induction l with
  | nil =>
      intro _
      show ((([] : List α) ++ [nb]).filter f) = [nb]
      simp [hnb]
  | cons x xs ih =>
      intro hcount
      cases hx : f x with
      | true =>
          rw [upsertBy_cons_pos nb xs hx]
          have hzero : xs.countP f = 0 := by
            rw [List.countP_cons, hx] at hcount
            have hc : xs.countP f + 1 ≤ 1 := by simpa using hcount
            omega
          have hnil : xs.filter f = [] := by
            rw [List.filter_eq_nil_iff]
            exact List.countP_eq_zero.mp hzero
          simp [List.filter_cons, hnb, hnil]
      | false =>
          rw [upsertBy_cons_neg nb xs hx]
          rw [List.filter_cons_of_neg (by simp [hx])]
          apply ih
          rw [List.countP_cons, hx] at hcount
          simpa using hcount

/-- An upsert stores exactly the given value under the given key. -/
theorem assocLookup_assocUpsert {β : Type} (l : List (String × β))
    (key : String) (value : β) :
    assocLookup (assocUpsert l key value) key = some value := by
  unfold assocLookup assocUpsert
  rw [find?_upsertBy (by simp) l]
  rfl

/-- Round trip of a config through the `server_configs` table: every field
survives except `permissions`, which comes back as the default policy (the
non-empty-prompt hypothesis keeps `row.custom_prompt || undefined` the
identity). -/
theorem configOfRow_rowOfConfig (config : ServerConfig)
    (hcp : config.customPrompt ≠ some "") :
    configOfRow (rowOfConfig config) =
      { config with permissions := createDefaultPermissionConfig } := by
  obtain ⟨sid, sname, chans, prov, cp, rls, reqs, aroles, perms, dap, ucp⟩ := config
  cases cp with
  | none => rfl
  | some s =>
      have hs : (s == "") = false := by
        rcases hb : s == "" with _ | _
        · rfl
        · exact absurd (congrArg (Option.some) (eq_of_beq hb)) hcp
      simp [configOfRow, rowOfConfig, createDefaultPermissionConfig, hs]

/-! ## Claim theorems -/

/-- C2 — Admin supremacy: for every policy, actor and capability, the
authorization check (`PermissionChecker.hasSpecificPermission`) with
`isAdmin = true` returns true, bypassing the default set, role bindings,
user bindings and admin-only restrictions. -/
theorem hasSpecificPermission_admin_supremacy
    (config : PermissionConfig) (memberId : String)
    (memberRoleIds : List String) (permission : BotPermission) :
    hasSpecificPermission config memberId memberRoleIds true permission = true := rfl

/-- C3 — Admin-only exclusion: for every non-admin actor and every capability
in `adminOnlyPermissions`, the authorization check returns false, regardless
of any role binding, user binding or default capability granting it. -/
theorem hasSpecificPermission_adminOnly_excludes_nonAdmin
    (config : PermissionConfig) (memberId : String)
    (memberRoleIds : List String) (permission : BotPermission)
    (h : config.adminOnlyPermissions.contains permission = true) :
    hasSpecificPermission config memberId memberRoleIds false permission = false := by
  unfold hasSpecificPermission hasPermission
  rw [h]
  simp

/-- Witness for C3 at a policy whose default set, a held enabled role binding
and an enabled user binding all grant `manage_config`. -/
theorem hasSpecificPermission_adminOnly_excludes_nonAdmin_witness :
    (samplePolicyAdminOnly.adminOnlyPermissions.contains .manage_config = true) ∧
    hasSpecificPermission samplePolicyAdminOnly "u1" ["r1"] false .manage_config
      = false :=
  ⟨by decide,
   hasSpecificPermission_adminOnly_excludes_nonAdmin samplePolicyAdminOnly
     "u1" ["r1"] .manage_config (by decide)⟩

/-- C4 — Custom override replaces: when the resolver finds an enabled user
binding for the actor and that binding has `isCustom = true`, the effective
capability set is exactly the capability set of the binding — defaults and
role-derived capabilities are discarded. -/
theorem getUserEffectivePermissions_custom_replaces
    (config : PermissionConfig) (memberId : String)
    (memberRoleIds : List String) (userPermission : UserPermission)
    (hfind : config.userPermissions.find?
        (fun up => up.userId == memberId && up.enabled) = some userPermission)
    (hcustom : userPermission.isCustom = true) :
    ∀ p, p ∈ getUserEffectivePermissions config memberId memberRoleIds ↔
      p ∈ userPermission.permissions := by
  intro p
  unfold getUserEffectivePermissions
  rw [hfind]
  simp [hcustom, mem_setAddAll]

/-- Witness for C4: with default `view_help`, a held role granting `use_bot`
and a custom binding granting only `consult`, resolution yields membership
exactly as in the binding. -/
theorem getUserEffectivePermissions_custom_replaces_witness :
    (samplePolicyCustom.userPermissions.find?
        (fun up => up.userId == "u1" && up.enabled) = some sampleCustomBinding) ∧
    (sampleCustomBinding.isCustom = true) ∧
    (BotPermission.view_help ∈
        getUserEffectivePermissions samplePolicyCustom "u1" ["r1"] ↔
      BotPermission.view_help ∈ sampleCustomBinding.permissions) :=
  ⟨by decide, by decide,
   getUserEffectivePermissions_custom_replaces samplePolicyCustom "u1" ["r1"]
     sampleCustomBinding (by decide) (by decide) .view_help⟩

/-- C1 — counterexample: a tenant existing only in the fallback backend with
a non-default permissions policy.  The first load returns the file record and
migrates it; the second load hits the primary and returns the record with the
default policy instead — `defaultPermissions` and the role binding of the
file record are gone, so migration does not preserve the permissions
policy. -/
theorem c1_migration_loses_policy_counterexample :
    loadServerConfig sampleMigrationState "g1" =
      .ok (sampleFileConfig, sampleMigratedState) ∧
    loadServerConfig sampleMigratedState "g1" =
      .ok ({ sampleFileConfig with permissions := createDefaultPermissionConfig },
           sampleMigratedState) ∧
    createDefaultPermissionConfig ≠ sampleFileConfig.permissions ∧
    loadConfigFromDatabase sampleMigratedState "g1" =
      some { sampleFileConfig with permissions := createDefaultPermissionConfig } :=
  ⟨rfl, rfl, by decide, rfl⟩

/-- C1 (amended) — the read-through migration preserves every field that the
`server_configs` schema stores (name, provider, prompt, channels, rules,
requirements, admin roles, settings), but the table has no column for the
embedded permissions policy: the second load, and a direct read of the
primary after the first load, return the record with its permissions reset
to the default policy. -/
theorem loadServerConfig_migration_resets_permissions
    (st : StoreState) (serverId : String) (cfg : ServerConfig)
    (hdb : st.dbAvailable = true)
    (hw : st.dbWriteFails = false)
    (hmiss : assocLookup st.db serverId = none)
    (hfile : assocLookup st.files serverId = some cfg)
    (hsid : cfg.serverId = serverId)
    (hvalid : validateConfigOk cfg = true)
    (hcp : cfg.customPrompt ≠ some "") :
    loadServerConfig st serverId =
      .ok (cfg, { st with db := assocUpsert st.db serverId (rowOfConfig cfg) }) ∧
    loadServerConfig
        { st with db := assocUpsert st.db serverId (rowOfConfig cfg) } serverId =
      .ok ({ cfg with permissions := createDefaultPermissionConfig },
           { st with db := assocUpsert st.db serverId (rowOfConfig cfg) }) ∧
    loadConfigFromDatabase
        { st with db := assocUpsert st.db serverId (rowOfConfig cfg) } serverId =
      some { cfg with permissions := createDefaultPermissionConfig } := by
  refine ⟨?_, ?_, ?_⟩
  · simp [loadServerConfig, loadConfigFromDatabase, saveConfigToDatabase,
      hdb, hw, hmiss, hfile, hsid, hvalid]
  · simp [loadServerConfig, loadConfigFromDatabase, hdb,
      assocLookup_assocUpsert, configOfRow_rowOfConfig cfg hcp]
  · simp [loadConfigFromDatabase, assocLookup_assocUpsert,
      configOfRow_rowOfConfig cfg hcp]

/-- Witness for the amended C1 at the concrete migration scenario. -/
theorem loadServerConfig_migration_resets_permissions_witness :
    (assocLookup sampleMigrationState.files "g1" = some sampleFileConfig) ∧
    (sampleFileConfig.customPrompt ≠ some "") ∧
    loadServerConfig sampleMigrationState "g1" =
      .ok (sampleFileConfig, sampleMigratedState) ∧
    loadServerConfig sampleMigratedState "g1" =
      .ok ({ sampleFileConfig with permissions := createDefaultPermissionConfig },
           sampleMigratedState) := by
  have h := loadServerConfig_migration_resets_permissions sampleMigrationState
    "g1" sampleFileConfig rfl rfl rfl rfl rfl rfl (by decide)
  exact ⟨rfl, by decide, h.1, h.2.1⟩

/-- C5 — counterexample: same fallback-only tenant, but the primary rejects
the write-through.  `saveConfigToDatabase` rethrows, the catch in
`loadServerConfig` sees a non-`ENOENT` error and rethrows again, so the load
fails instead of returning the record. -/
theorem c5_write_through_failure_counterexample :
    loadServerConfig sampleWriteFailState "g1" = .error .dbWriteError := rfl

/-- C5 (amended) — when the opportunistic write-through of a fallback record
into the primary fails, the failure is not swallowed: `loadServerConfig`
rethrows it and the record is not returned to the caller. -/
theorem loadServerConfig_write_through_failure_propagates
    (st : StoreState) (serverId : String) (cfg : ServerConfig)
    (hdb : st.dbAvailable = true)
    (hw : st.dbWriteFails = true)
    (hmiss : assocLookup st.db serverId = none)
    (hfile : assocLookup st.files serverId = some cfg)
    (hvalid : validateConfigOk cfg = true) :
    loadServerConfig st serverId = .error .dbWriteError := by
  simp [loadServerConfig, loadConfigFromDatabase, saveConfigToDatabase,
    hdb, hw, hmiss, hfile, hvalid]

/-- Witness for the amended C5 at the concrete write-failure scenario. -/
theorem loadServerConfig_write_through_failure_propagates_witness :
    (sampleWriteFailState.dbWriteFails = true) ∧
    (assocLookup sampleWriteFailState.files "g1" = some sampleFileConfig) ∧
    loadServerConfig sampleWriteFailState "g1" = .error .dbWriteError :=
  ⟨rfl, rfl,
   loadServerConfig_write_through_failure_propagates sampleWriteFailState "g1"
     sampleFileConfig rfl rfl rfl rfl rfl⟩

/-- C6 — counterexample: with no database configured and no fallback file,
the load synthesizes and returns the default record but persists it nowhere —
the state is returned unchanged and the available (file) backend still holds
no record, although the claim requires persistence to whichever backend is
available. -/
theorem c6_default_not_persisted_counterexample :
    loadServerConfig sampleEmptyNoDbState "g2" =
      .ok (createDefaultConfig "g2", sampleEmptyNoDbState) ∧
    sampleEmptyNoDbState.dbAvailable = false ∧
    sampleEmptyNoDbState.files = [] :=
  ⟨rfl, rfl, rfl⟩

/-- C6 (amended) — when neither backend has a record, `loadServerConfig`
never fails with not-found: it synthesizes the default record (default set
`view_help`, admin-only `manage_config` and `manage_permissions`, no
bindings) and returns it; it persists the default to the primary backend
when the primary is available (and the write succeeds), but when only the
fallback is available the default is returned without being persisted. -/
theorem loadServerConfig_default_synthesis
    (st : StoreState) (serverId : String)
    (hdbmiss : assocLookup st.db serverId = none)
    (hfmiss : assocLookup st.files serverId = none) :
    (st.dbAvailable = true → st.dbWriteFails = false →
      loadServerConfig st serverId =
        .ok (createDefaultConfig serverId,
             { st with
               db :=
                 assocUpsert st.db serverId (rowOfConfig (createDefaultConfig serverId)) })) ∧
    (st.dbAvailable = false →
      loadServerConfig st serverId = .ok (createDefaultConfig serverId, st)) ∧
    (createDefaultConfig serverId).permissions.defaultPermissions = [.view_help] ∧
    (createDefaultConfig serverId).permissions.adminOnlyPermissions =
      [.manage_config, .manage_permissions] ∧
    (createDefaultConfig serverId).permissions.rolePermissions = [] ∧
    (createDefaultConfig serverId).permissions.userPermissions = [] := by
  refine ⟨?_, ?_, rfl, rfl, rfl, rfl⟩
  · intro h1 h2
    simp [loadServerConfig, loadConfigFromDatabase, saveConfigToDatabase,
      createDefaultConfig, h1, h2, hdbmiss, hfmiss]
  · intro h1
    simp [loadServerConfig, loadConfigFromDatabase, h1, hfmiss]

/-- Witness for the amended C6 with an available, empty, writable primary. -/
theorem loadServerConfig_default_synthesis_witness :
    (assocLookup sampleEmptyDbState.db "g2" = none) ∧
    (assocLookup sampleEmptyDbState.files "g2" = none) ∧
    loadServerConfig sampleEmptyDbState "g2" =
      .ok (createDefaultConfig "g2",
           { sampleEmptyDbState with
             db :=
               assocUpsert sampleEmptyDbState.db "g2" (rowOfConfig (createDefaultConfig "g2")) }) := by
  have h := loadServerConfig_default_synthesis sampleEmptyDbState "g2" rfl rfl
  exact ⟨rfl, rfl, h.1 rfl rfl⟩

/-- C7 — counterexample: a request whose capability list consists of one
unknown name.  Instead of dropping the name and proceeding, every binding
subcommand rejects the call (the handlers reply with an error once nothing
valid remains). -/
theorem c7_all_invalid_rejected_counterexample :
    botPermissionFromName "fly_to_moon" = none ∧
    handleRoleAdd ["fly_to_moon"] = .rejected ∧
    handleUserAdd ["fly_to_moon"] = .rejected ∧
    handleSetDefaultPerms ["fly_to_moon"] = .rejected :=
  ⟨rfl, rfl, rfl, rfl⟩

/-- C7 (amended) — unknown capability names are silently dropped and the
binding operation (role-add, user-add, default) proceeds with the remaining
valid names, provided at least one valid name remains; a request with no
valid name at all is rejected and no binding operation is performed. -/
theorem binding_ops_drop_unknown_names
    (tokens : List String) (bad : String)
    (hbad : botPermissionFromName bad = none)
    (hsome : parsePermissions tokens ≠ []) :
    parsePermissions (tokens ++ [bad]) = parsePermissions tokens ∧
    handleRoleAdd (tokens ++ [bad]) = .applied (parsePermissions tokens) ∧
    handleUserAdd (tokens ++ [bad]) = .applied (parsePermissions tokens) ∧
    handleSetDefaultPerms (tokens ++ [bad]) = .applied (parsePermissions tokens) := by
  have hdrop : parsePermissions (tokens ++ [bad]) = parsePermissions tokens := by
    simp [parsePermissions, List.filterMap_append, hbad]
  have hlen : ((parsePermissions tokens).length == 0) = false := by
    cases hp : parsePermissions tokens with
    | nil => exact absurd hp hsome
    | cons a l => rfl
  refine ⟨hdrop, ?_, ?_, ?_⟩ <;>
    simp [handleRoleAdd, handleUserAdd, handleSetDefaultPerms, hdrop, hlen]

/-- Witness for the amended C7: `use_bot,fly_to_moon` binds just `use_bot`. -/
theorem binding_ops_drop_unknown_names_witness :
    (botPermissionFromName "fly_to_moon" = none) ∧
    (parsePermissions ["use_bot"] ≠ []) ∧
    handleRoleAdd ["use_bot", "fly_to_moon"] = .applied [.use_bot] :=
  ⟨rfl, by decide,
   (binding_ops_drop_unknown_names ["use_bot"] "fly_to_moon" rfl (by decide)).2.1⟩

/-- C8 — Upsert idempotence: two identical `setRolePermissions` calls leave,
in the stored policy of the server, exactly one binding for the roleId,
carrying exactly the given capability list with `enabled = true` — an upsert,
not a merge and not a duplicate.  The hypothesis is the data-model invariant
that the prior policy holds at most one binding for the roleId. -/
theorem setRolePermissions_twice_single_binding
    (allConfigs : PermissionConfigs) (serverId roleId roleName : String)
    (permissions : List BotPermission)
    (hcount : ((assocLookup allConfigs serverId).getD
        createDefaultPermissionConfig).rolePermissions.countP
        (fun rp => rp.roleId == roleId) ≤ 1) :
    (assocLookup
        (setRolePermissions
          (setRolePermissions allConfigs serverId roleId roleName permissions)
          serverId roleId roleName permissions) serverId).map
      (fun config => config.rolePermissions.filter (fun rp => rp.roleId == roleId)) =
    some [{ roleId := roleId, roleName := roleName
            permissions := permissions, enabled := true }] := by
  have hnb : (fun rp : RolePermission => rp.roleId == roleId)
      { roleId := roleId, roleName := roleName
        permissions := permissions, enabled := true } = true := by simp
  have h1 := @filter_upsertBy RolePermission
    (fun rp => rp.roleId == roleId)
    { roleId := roleId, roleName := roleName
      permissions := permissions, enabled := true } hnb
    ((assocLookup allConfigs serverId).getD
      createDefaultPermissionConfig).rolePermissions
    hcount
  have hcount2 : (upsertBy (fun rp : RolePermission => rp.roleId == roleId)
      { roleId := roleId, roleName := roleName
        permissions := permissions, enabled := true }
      ((assocLookup allConfigs serverId).getD
        createDefaultPermissionConfig).rolePermissions).countP
      (fun rp => rp.roleId == roleId) ≤ 1 := by
    rw [List.countP_eq_length_filter, h1]
    exact le_refl 1
  have h2 := @filter_upsertBy RolePermission
    (fun rp => rp.roleId == roleId)
    { roleId := roleId, roleName := roleName
      permissions := permissions, enabled := true } hnb _ hcount2
  simp only [setRolePermissions, assocLookup_assocUpsert, Option.getD_some,
    Option.map_some']
  exact congrArg some h2

/-- Witness for C8 starting from an empty permission store. -/
theorem setRolePermissions_twice_single_binding_witness :
    (((assocLookup ([] : PermissionConfigs) "g1").getD
        createDefaultPermissionConfig).rolePermissions.countP
        (fun rp => rp.roleId == "r1") ≤ 1) ∧
    (assocLookup
        (setRolePermissions
          (setRolePermissions [] "g1" "r1" "mods" [.use_bot, .consult])
          "g1" "r1" "mods" [.use_bot, .consult]) "g1").map
      (fun config => config.rolePermissions.filter (fun rp => rp.roleId == "r1")) =
    some [{ roleId := "r1", roleName := "mods"
            permissions := [.use_bot, .consult], enabled := true }] :=
  ⟨by decide,
   setRolePermissions_twice_single_binding [] "g1" "r1" "mods"
     [.use_bot, .consult] (by decide)⟩

/-- C9 — Removing an unbound role is a no-op on the policy: with no binding
for the roleId, `removeRolePermissions` stores back a policy equal to the
one it observed — same `rolePermissions`, `userPermissions`,
`defaultPermissions` and `adminOnlyPermissions` (it cannot fail in the model;
in the source only the file write can throw). -/
theorem removeRolePermissions_absent_role_frame
    (allConfigs : PermissionConfigs) (serverId roleId : String)
    (habs : ((assocLookup allConfigs serverId).getD
        createDefaultPermissionConfig).rolePermissions.all
        (fun rp => rp.roleId != roleId) = true) :
    assocLookup (removeRolePermissions allConfigs serverId roleId) serverId =
      some ((assocLookup allConfigs serverId).getD createDefaultPermissionConfig) := by
  simp only [removeRolePermissions, assocLookup_assocUpsert]
  congr 1
  have hkeep : ((assocLookup allConfigs serverId).getD
      createDefaultPermissionConfig).rolePermissions.filter
      (fun rp => rp.roleId != roleId) =
      ((assocLookup allConfigs serverId).getD
        createDefaultPermissionConfig).rolePermissions :=
    List.filter_eq_self.mpr (List.all_eq_true.mp habs)
  rw [hkeep]

/-- Witness for C9: removing an absent roleId from a stored policy. -/
theorem removeRolePermissions_absent_role_frame_witness :
    (((assocLookup [("g1", samplePolicyCustom)] "g1").getD
        createDefaultPermissionConfig).rolePermissions.all
        (fun rp => rp.roleId != "rX") = true) ∧
    assocLookup (removeRolePermissions [("g1", samplePolicyCustom)] "g1" "rX") "g1" =
      some samplePolicyCustom :=
  ⟨by decide,
   removeRolePermissions_absent_role_frame [("g1", samplePolicyCustom)] "g1" "rX"
     (by decide)⟩

/-- C10 — `setUserPermissions` called without the optional `isCustom`
argument stores a binding with `isCustom = true` and `enabled = true`
(replace-at-resolution semantics); additive semantics require passing
`isCustom = false` explicitly, which stores `isCustom = false`.  The
hypothesis is the at-most-one-binding-per-userId invariant. -/
theorem setUserPermissions_omitted_isCustom_stores_custom_enabled
    (allConfigs : PermissionConfigs) (serverId userId username : String)
    (permissions : List BotPermission)
    (hcount : ((assocLookup allConfigs serverId).getD
        createDefaultPermissionConfig).userPermissions.countP
        (fun up => up.userId == userId) ≤ 1) :
    (assocLookup
        (setUserPermissionsOmittingIsCustom allConfigs serverId userId username
          permissions) serverId).map
      (fun config => config.userPermissions.filter (fun up => up.userId == userId)) =
    some [{ userId := userId, username := username
            permissions := permissions, enabled := true, isCustom := true }] ∧
    (assocLookup
        (setUserPermissions allConfigs serverId userId username permissions false)
          serverId).map
      (fun config => config.userPermissions.filter (fun up => up.userId == userId)) =
    some [{ userId := userId, username := username
            permissions := permissions, enabled := true, isCustom := false }] := by
  constructor <;>
  · simp only [setUserPermissionsOmittingIsCustom, setUserPermissions,
      assocLookup_assocUpsert, Option.map_some']
    exact congrArg some (filter_upsertBy (by simp) _ hcount)

/-- Witness for C10 on an empty permission store. -/
theorem setUserPermissions_omitted_isCustom_stores_custom_enabled_witness :
    (((assocLookup ([] : PermissionConfigs) "g1").getD
        createDefaultPermissionConfig).userPermissions.countP
        (fun up => up.userId == "u1") ≤ 1) ∧
    (assocLookup
        (setUserPermissionsOmittingIsCustom [] "g1" "u1" "alice" [.consult])
          "g1").map
      (fun config => config.userPermissions.filter (fun up => up.userId == "u1")) =
    some [{ userId := "u1", username := "alice"
            permissions := [.consult], enabled := true, isCustom := true }] :=
  ⟨by decide,
   (setUserPermissions_omitted_isCustom_stores_custom_enabled [] "g1" "u1"
     "alice" [.consult] (by decide)).1⟩

end DiscordBot
